import Mathlib

/-!
# Verification of the greenhouselanding frame-sequence engine

Shallow embedding of the two core components of the repository —
`ForestScroller` (assets/js/forest-scroller.js) and `ForestAmbient`
(the atmospheric-effects class shipped in DEPLOY.md) — with proofs of the
testable properties stated in the specification.

JavaScript numbers are modelled as exact rationals (`ℚ`); `Math.floor` is
`Int.floor`, `Math.round` (half towards +∞) is `⌊x + 1/2⌋`, and
`Math.max/Math.min` are `max`/`min`.  Stateful methods become explicit
state-passing functions.  Image loading (`preloadImages`/`loadImage`) is
modelled against an oracle `outcome : ℕ → Bool` saying whether the load of a
given frame index succeeds; `Promise.all` semantics are modelled by running
every requested load for its side effects and conjoining the per-load results.
-/

namespace ForestScroller

/-- JavaScript `Math.round`: rounds half-up (towards +∞). -/
def jsRound (x : ℚ) : ℤ := ⌊x + 1/2⌋

/-- Numeric configuration captured by the `ForestScroller` constructor
(string/callback options, which carry no numeric behaviour, are omitted).
Defaults: `totalFrames = 120`, `smoothing = 0.1`, `preloadCount = 5`,
`mobileFrameCount = 60`, `mobileBreakpoint = 768`. -/
structure Config where
  totalFrames : ℕ
  smoothing : ℚ
  preloadCount : ℕ
  mobileFrameCount : ℕ
  mobileBreakpoint : ℚ
  deriving DecidableEq, Repr

/-- The mutable playback state: `currentFrame`, `targetFrame`, `velocity`. -/
structure ScrollerState where
  currentFrame : ℚ
  targetFrame : ℚ
  velocity : ℚ
  deriving DecidableEq, Repr

/-- `init`: `this.isMobile = window.innerWidth <= this.config.mobileBreakpoint;
if (this.isMobile) this.config.totalFrames = this.config.mobileFrameCount;`.
Returns the session value of `config.totalFrames` after the one-time check. -/
def initTotalFrames (cfg : Config) (innerWidth : ℚ) : ℕ :=
  if innerWidth ≤ cfg.mobileBreakpoint then cfg.mobileFrameCount else cfg.totalFrames

/-- `easeInOutCubic(t)`: `t < 0.5 ? 4*t*t*t : 1 - Math.pow(-2*t+2, 3)/2`. -/
def easeInOutCubic (t : ℚ) : ℚ :=
  if t < 1/2 then 4 * t ^ 3 else 1 - (-2 * t + 2) ^ 3 / 2

/-- `updateScrollPosition()`: computes the normalized scroll progress
(0 when the document has no positive scrollable extent) and the new
`targetFrame = easedProgress * (totalFrames - 1)`.  Returns the pair
`(scrollProgress, targetFrame)`. -/
def updateScrollPosition (cfg : Config) (docScrollHeight innerHeight pageYOffset : ℚ) :
    ℚ × ℚ :=
  let scrollHeight := docScrollHeight - innerHeight
  let scrollProgress :=
    if scrollHeight > 0 then max 0 (min 1 (pageYOffset / scrollHeight)) else 0
  (scrollProgress, easeInOutCubic scrollProgress * ((cfg.totalFrames : ℚ) - 1))

/-- The adaptive smoothing constant of the draw loop:
`this.scrollVelocity > 50 ? 0.12 : 0.06`. -/
def adaptiveSmoothness (scrollVelocity : ℚ) : ℚ :=
  if scrollVelocity > 50 then 12/100 else 6/100

/-- The snap threshold of the draw loop: `const velocityThreshold = 0.05`. -/
def velocityThreshold : ℚ := 1/20

/-- One iteration of the `startAnimationLoop` `animate` body, restricted to the
state it mutates: `velocity += (targetFrame - currentFrame) * s;
velocity *= 0.75; currentFrame += velocity;` then clamp to
`[0, totalFrames-1]`, then snap to `Math.round(currentFrame)` when
`|velocity| < 0.05`.  `s` is the adaptive smoothing constant in force. -/
def animateStep (totalFrames : ℕ) (s : ℚ) (st : ScrollerState) : ScrollerState :=
  let diff := st.targetFrame - st.currentFrame
  let v1 := (st.velocity + diff * s) * (3/4)
  let c1 := st.currentFrame + v1
  let c2 := max 0 (min c1 ((totalFrames : ℚ) - 1))
  ⟨if |v1| < velocityThreshold then ((jsRound c2 : ℤ) : ℚ) else c2, st.targetFrame, v1⟩

/-- The full draw-loop iteration as the code runs it, reading the adaptive
smoothing constant from the (frozen) scroll velocity.  `cfg.smoothing` is not
consulted anywhere in the loop. -/
def animate (cfg : Config) (scrollVelocity : ℚ) (st : ScrollerState) : ScrollerState :=
  animateStep cfg.totalFrames (adaptiveSmoothness scrollVelocity) st

/-- `jumpToFrame(frameIndex)`: clamps, writes both `currentFrame` and
`targetFrame`, and draws `Math.floor(clampedIndex)`.  Returns the new state
together with the frame index handed to `drawFrame`. -/
def jumpToFrame (totalFrames : ℕ) (frameIndex : ℚ) (st : ScrollerState) :
    ScrollerState × ℤ :=
  let clampedIndex := max 0 (min frameIndex ((totalFrames : ℚ) - 1))
  (⟨clampedIndex, clampedIndex, st.velocity⟩, ⌊clampedIndex⌋)

/-- `jumpToProgress(percentage)`: `(percentage / 100) * (totalFrames - 1)`
handed to `jumpToFrame`. -/
def jumpToProgress (totalFrames : ℕ) (percentage : ℚ) (st : ScrollerState) :
    ScrollerState × ℤ :=
  jumpToFrame totalFrames ((percentage / 100) * ((totalFrames : ℚ) - 1)) st

/-- The observability snapshot returned by `getMetrics()`. -/
structure Metrics where
  fps : ℤ
  currentFrame : ℤ
  totalFrames : ℕ
  loadedFrames : ℕ
  progress : ℚ
  isMobile : Bool
  deriving DecidableEq, Repr

/-- `getMetrics()`. -/
def getMetrics (cfg : Config) (fps : ℚ) (loadedCount : ℕ) (isMobile : Bool)
    (st : ScrollerState) : Metrics :=
  ⟨jsRound fps, ⌊st.currentFrame⌋, cfg.totalFrames, loadedCount,
    st.currentFrame / ((cfg.totalFrames : ℚ) - 1), isMobile⟩

/-! ### Image-loading model (`loadImage` / `preloadImages` / `init`)

`outcome i` says whether the network load of frame index `i` succeeds.
`loadImage` resolves immediately when the index is already in
`this.loadedImages`; on success it stores the image, adds the index and
increments `this.loadedCount`; on failure it rejects (returns `false`) and
leaves the state untouched.  The priority frames are awaited in order, so the
first rejection stops the sequence (`loadSeq`); the remaining frames are all
started before `Promise.all` is awaited, so every load runs for its side
effects and the batch result is the conjunction of the individual results
(`loadAll`).  `initReady` returns the final load state together with whether
`init` reaches the `onReady` callback (a rejected preload jumps to the
`catch` block, which calls `onError` instead). -/

/-- The image-collection state: `this.loadedImages` and `this.loadedCount`. -/
structure LoadState where
  loadedImages : Finset ℕ
  loadedCount : ℕ
  deriving DecidableEq

/-- `loadImage(index)` against the load oracle. -/
def loadImage (outcome : ℕ → Bool) (index : ℕ) (st : LoadState) : LoadState × Bool :=
  if index ∈ st.loadedImages then (st, true)
  else if outcome index then
    (⟨insert index st.loadedImages, st.loadedCount + 1⟩, true)
  else (st, false)

/-- The sequential `for (const frameIndex of priorityFrames) await ...` loop:
stops at the first rejection. -/
def loadSeq (outcome : ℕ → Bool) : List ℕ → LoadState → LoadState × Bool
  | [], st => (st, true)
  | i :: rest, st =>
      let r := loadImage outcome i st
      if r.2 then loadSeq outcome rest r.1 else (r.1, false)

/-- `await Promise.all(loadPromises)`: every load runs (all side effects
happen), and the await succeeds only when every load succeeded. -/
def loadAll (outcome : ℕ → Bool) : List ℕ → LoadState → LoadState × Bool
  | [], st => (st, true)
  | i :: rest, st =>
      let r := loadImage outcome i st
      let rest' := loadAll outcome rest r.1
      (rest'.1, r.2 && rest'.2)

/-- `priorityFrames = [0, Math.floor(totalFrames/2), totalFrames - 1]`. -/
def priorityFrames (totalFrames : ℕ) : List ℕ :=
  [0, totalFrames / 2, totalFrames - 1]

/-- `preloadImages()`: priority frames sequentially, then all remaining
frames through `Promise.all`.  Returns the final load state and whether the
preload promise resolved. -/
def preloadImages (totalFrames : ℕ) (outcome : ℕ → Bool) (st : LoadState) :
    LoadState × Bool :=
  let pr := loadSeq outcome (priorityFrames totalFrames) st
  if pr.2 then
    loadAll outcome
      ((List.range totalFrames).filter (fun i => decide (i ∉ priorityFrames totalFrames)))
      pr.1
  else pr

/-- The load-relevant outcome of `init()`: the final image collection and
whether `onReady` is invoked (`true`) or the `catch` block runs `onError`
(`false`). -/
def initReady (totalFrames : ℕ) (outcome : ℕ → Bool) : LoadState × Bool :=
  preloadImages totalFrames outcome ⟨∅, 0⟩

/-! ### Spring-convergence machinery for the draw loop

In the draw loop the velocity update is
`v' = (v + (T - c) * s) * 3/4 = (3/4) * v - q * (c - T)` with `q = 3*s/4`.
`lyapQ q` is a diagonal quadratic Lyapunov function for the error/velocity
pair of this spring: it contracts by `1 - q` per un-snapped tick and is
insensitive to the clamp. -/

/-- Quadratic Lyapunov function `e² + ((1-q)/q) · v²` for the spring with
gain `q = 3*s/4`. -/
def lyapQ (q e v : ℚ) : ℚ := e ^ 2 + (1 - q) / q * v ^ 2

/-- The absorbing set of the draw loop for an integer target `T`:
`currentFrame` is exactly `T` and the velocity is below the snap threshold. -/
def converged (T : ℤ) (st : ScrollerState) : Prop :=
  st.currentFrame = (T : ℚ) ∧ |st.velocity| < velocityThreshold

instance (T : ℤ) (st : ScrollerState) : Decidable (converged T st) := by
  unfold converged; infer_instance

end ForestScroller

namespace ForestAmbient

/-- `updateProgress(progress)`: `midProgress = 1 - Math.abs(progress-0.5)*2;
this.lightRayOpacity = midProgress * 0.5 + 0.2`. -/
def lightRayOpacityOf (progress : ℚ) : ℚ :=
  (1 - |progress - 1/2| * 2) * (1/2) + 1/5

/-- The wrap-around-screen block shared by `drawParticles` and `drawSparkles`,
applied to a freshly moved position `pos`:
`if (x < -10) x = W+10; if (x > W+10) x = -10;
if (y > H+10) { y = -10; x = Math.random()*W; }`.
`rand` is the value drawn from `Math.random()`. -/
def wrapAroundScreen (innerWidth innerHeight rand : ℚ) (pos : ℚ × ℚ) : ℚ × ℚ :=
  let x1 := if pos.1 < -10 then innerWidth + 10 else pos.1
  let x2 := if x1 > innerWidth + 10 then -10 else x1
  if pos.2 > innerHeight + 10 then (rand * innerWidth, -10) else (x2, pos.2)

/-- Position update of one particle per `drawParticles` tick:
`x += speedX * (1 + depth) * velocityFactor; y += speedY * (1 + depth) *
velocityFactor;` followed by the wrap block. -/
def particleTick (innerWidth innerHeight rand speedX speedY depth velocityFactor : ℚ)
    (pos : ℚ × ℚ) : ℚ × ℚ :=
  wrapAroundScreen innerWidth innerHeight rand
    (pos.1 + speedX * (1 + depth) * velocityFactor,
     pos.2 + speedY * (1 + depth) * velocityFactor)

/-- Position update of one sparkle per `drawSparkles` tick:
`speedX = baseSpeedX * velocityFactor; speedY = baseSpeedY * velocityFactor;
x += speedX * (0.8 + depth * 0.4); y += speedY * (0.8 + depth * 0.4);`
followed by the same wrap block. -/
def sparkleTick (innerWidth innerHeight rand baseSpeedX baseSpeedY depth velocityFactor : ℚ)
    (pos : ℚ × ℚ) : ℚ × ℚ :=
  wrapAroundScreen innerWidth innerHeight rand
    (pos.1 + baseSpeedX * velocityFactor * (8/10 + depth * (4/10)),
     pos.2 + baseSpeedY * velocityFactor * (8/10 + depth * (4/10)))

end ForestAmbient

/-! ## Helper lemmas about the cubic easing -/

namespace ForestScroller

lemma easeInOutCubic_nonneg {t : ℚ} (h0 : 0 ≤ t) (h1 : t ≤ 1) :
    0 ≤ easeInOutCubic t := by
  unfold easeInOutCubic
  split
  · have := pow_nonneg h0 3
    linarith
  · have h2 : (-2 * t + 2) ^ 3 ≤ 1 ^ 3 := by
      apply pow_le_pow_left₀ (by linarith) (by linarith)
    nlinarith

lemma easeInOutCubic_le_one {t : ℚ} (h0 : 0 ≤ t) (h1 : t ≤ 1) :
    easeInOutCubic t ≤ 1 := by
  unfold easeInOutCubic
  split
  · rename_i hlt
    have h2 : t ^ 3 ≤ (1/2 : ℚ) ^ 3 := by
      apply pow_le_pow_left₀ h0 (by linarith)
    nlinarith
  · have h2 : 0 ≤ (-2 * t + 2) ^ 3 := pow_nonneg (by linarith) 3
    nlinarith

lemma easeInOutCubic_mono {a b : ℚ} (h0 : 0 ≤ a) (hab : a ≤ b) (h1 : b ≤ 1) :
    easeInOutCubic a ≤ easeInOutCubic b := by
  unfold easeInOutCubic
  rcases lt_or_le a (1/2) with ha | ha <;> rcases lt_or_le b (1/2) with hb | hb
  · simp only [if_pos ha, if_pos hb]
    have h2 : a ^ 3 ≤ b ^ 3 := pow_le_pow_left₀ h0 hab 3
    linarith
  · simp only [if_pos ha, if_neg (not_lt.mpr hb)]
    have h2 : a ^ 3 ≤ (1/2 : ℚ) ^ 3 := pow_le_pow_left₀ h0 (le_of_lt ha) 3
    have h3 : (-2 * b + 2) ^ 3 ≤ 1 ^ 3 := pow_le_pow_left₀ (by linarith) (by linarith) 3
    nlinarith
  · linarith
  · simp only [if_neg (not_lt.mpr ha), if_neg (not_lt.mpr hb)]
    have h2 : (-2 * b + 2) ^ 3 ≤ (-2 * a + 2) ^ 3 :=
      pow_le_pow_left₀ (by linarith) (by linarith) 3
    linarith

end ForestScroller

/-! ## C4 — mobile frame-count override at construction -/

/-- C4 counterexample: the claim says a viewport width equal to
`mobileBreakpoint` ("w not below b, including w equal to b") leaves
`totalFrames` unchanged, but `init` tests `innerWidth <= mobileBreakpoint`,
so width 768 with breakpoint 768 overrides `totalFrames` (120) with
`mobileFrameCount` (60). -/
theorem c4_counterexample :
    ForestScroller.initTotalFrames ⟨120, 1/10, 5, 60, 768⟩ 768 = 60 ∧
    ¬ ForestScroller.initTotalFrames ⟨120, 1/10, 5, 60, 768⟩ 768 =
        (⟨120, 1/10, 5, 60, 768⟩ : ForestScroller.Config).totalFrames := by
  constructor
  · norm_num [ForestScroller.initTotalFrames]
  · norm_num [ForestScroller.initTotalFrames]

/-- C4 (amended): `totalFrames` is overridden with `mobileFrameCount` exactly
when the viewport width is at or below `mobileBreakpoint` (the boundary width
counts as mobile); a width strictly above the breakpoint leaves `totalFrames`
unchanged.  In particular width 500 with breakpoint 768 overrides and width
1024 does not. -/
theorem c4_mobile_override (cfg : ForestScroller.Config) (w : ℚ) :
    (w ≤ cfg.mobileBreakpoint →
      ForestScroller.initTotalFrames cfg w = cfg.mobileFrameCount) ∧
    (cfg.mobileBreakpoint < w →
      ForestScroller.initTotalFrames cfg w = cfg.totalFrames) := by
  constructor
  · intro h
    simp [ForestScroller.initTotalFrames, h]
  · intro h
    simp [ForestScroller.initTotalFrames, not_le.mpr h]

/-- Witness for C4: width 500 against breakpoint 768 yields the mobile count,
width 1024 keeps the configured 120. -/
theorem c4_mobile_override_witness :
    ForestScroller.initTotalFrames ⟨120, 1/10, 5, 60, 768⟩ 500 = 60 ∧
    ForestScroller.initTotalFrames ⟨120, 1/10, 5, 60, 768⟩ 1024 = 120 :=
  ⟨(c4_mobile_override ⟨120, 1/10, 5, 60, 768⟩ 500).1 (by norm_num),
   (c4_mobile_override ⟨120, 1/10, 5, 60, 768⟩ 1024).2 (by norm_num)⟩

/-! ## C5 — targetFrame is monotone in scroll progress and stays in range -/

/-- C5: for scroll progress values `p₁ ≤ p₂` in `[0,1]`, the target frame
`easeInOutCubic p * (totalFrames - 1)` computed by `updateScrollPosition` is
monotone, and for every `p ∈ [0,1]` it lies in `[0, totalFrames-1]`. -/
theorem c5_targetFrame_monotone_bounded (F : ℕ) (hF : 1 ≤ F) :
    (∀ p₁ p₂ : ℚ, 0 ≤ p₁ → p₁ ≤ p₂ → p₂ ≤ 1 →
      ForestScroller.easeInOutCubic p₁ * ((F : ℚ) - 1) ≤
        ForestScroller.easeInOutCubic p₂ * ((F : ℚ) - 1)) ∧
    (∀ p : ℚ, 0 ≤ p → p ≤ 1 →
      0 ≤ ForestScroller.easeInOutCubic p * ((F : ℚ) - 1) ∧
      ForestScroller.easeInOutCubic p * ((F : ℚ) - 1) ≤ (F : ℚ) - 1) := by
  have hF1 : (0 : ℚ) ≤ (F : ℚ) - 1 := by
    have : (1 : ℚ) ≤ (F : ℚ) := by exact_mod_cast hF
    linarith
  refine ⟨fun p₁ p₂ h0 h12 h1 => ?_, fun p h0 h1 => ⟨?_, ?_⟩⟩
  · exact mul_le_mul_of_nonneg_right
      (ForestScroller.easeInOutCubic_mono h0 h12 h1) hF1
  · exact mul_nonneg (ForestScroller.easeInOutCubic_nonneg h0 h1) hF1
  · calc ForestScroller.easeInOutCubic p * ((F : ℚ) - 1)
        ≤ 1 * ((F : ℚ) - 1) :=
          mul_le_mul_of_nonneg_right (ForestScroller.easeInOutCubic_le_one h0 h1) hF1
      _ = (F : ℚ) - 1 := one_mul _

/-- Witness for C5 at `totalFrames = 120`, `p₁ = 1/4`, `p₂ = 3/4`. -/
theorem c5_targetFrame_monotone_bounded_witness :
    ForestScroller.easeInOutCubic (1/4) * ((120 : ℚ) - 1) ≤
      ForestScroller.easeInOutCubic (3/4) * ((120 : ℚ) - 1) ∧
    0 ≤ ForestScroller.easeInOutCubic (1/4) * ((120 : ℚ) - 1) ∧
    ForestScroller.easeInOutCubic (1/4) * ((120 : ℚ) - 1) ≤ (120 : ℚ) - 1 :=
  ⟨(c5_targetFrame_monotone_bounded 120 (by norm_num)).1 (1/4) (3/4)
      (by norm_num) (by norm_num) (by norm_num),
   (c5_targetFrame_monotone_bounded 120 (by norm_num)).2 (1/4)
      (by norm_num) (by norm_num)⟩

/-! ## C7 — light-ray opacity profile of `ForestAmbient.updateProgress` -/

/-- C7: the light-ray opacity `(1 - |p - 1/2|*2) * 0.5 + 0.2` is maximal at
`p = 1/2`, strictly decreasing as `p` moves from `1/2` towards either end,
equals its minimum `1/5` at `p = 0` and `p = 1`, never drops below `1/5` on
`[0,1]`, and that baseline is strictly positive. -/
theorem c7_lightRayOpacity_profile :
    (∀ p : ℚ, 0 ≤ p → p ≤ 1 →
      ForestAmbient.lightRayOpacityOf p ≤ ForestAmbient.lightRayOpacityOf (1/2)) ∧
    (∀ p₁ p₂ : ℚ, 1/2 ≤ p₁ → p₁ < p₂ → p₂ ≤ 1 →
      ForestAmbient.lightRayOpacityOf p₂ < ForestAmbient.lightRayOpacityOf p₁) ∧
    (∀ p₁ p₂ : ℚ, 0 ≤ p₁ → p₁ < p₂ → p₂ ≤ 1/2 →
      ForestAmbient.lightRayOpacityOf p₁ < ForestAmbient.lightRayOpacityOf p₂) ∧
    ForestAmbient.lightRayOpacityOf 0 = 1/5 ∧
    ForestAmbient.lightRayOpacityOf 1 = 1/5 ∧
    (∀ p : ℚ, 0 ≤ p → p ≤ 1 → 1/5 ≤ ForestAmbient.lightRayOpacityOf p) ∧
    (0 : ℚ) < 1/5 := by
  have key : ∀ p : ℚ, ForestAmbient.lightRayOpacityOf p =
      (1 - |p - 1/2| * 2) * (1/2) + 1/5 := fun p => rfl
  refine ⟨fun p h0 h1 => ?_, fun p₁ p₂ h₁ h₁₂ h₂ => ?_, fun p₁ p₂ h₁ h₁₂ h₂ => ?_,
    ?_, ?_, fun p h0 h1 => ?_, by norm_num⟩
  · rw [key, key]
    have := abs_nonneg (p - 1/2)
    norm_num
    linarith
  · rw [key, key]
    rw [abs_of_nonneg (by linarith : (0:ℚ) ≤ p₁ - 1/2),
        abs_of_nonneg (by linarith : (0:ℚ) ≤ p₂ - 1/2)]
    linarith
  · rw [key, key]
    rw [abs_of_nonpos (by linarith : p₁ - 1/2 ≤ (0:ℚ)),
        abs_of_nonpos (by linarith : p₂ - 1/2 ≤ (0:ℚ))]
    linarith
  · have habs : |(0 : ℚ) - 1/2| = 1/2 := by
      rw [abs_of_nonpos (by norm_num)]; norm_num
    rw [key, habs]; norm_num
  · have habs : |(1 : ℚ) - 1/2| = 1/2 := by
      rw [abs_of_nonneg (by norm_num)]; norm_num
    rw [key, habs]; norm_num
  · rw [key]
    rcases le_or_lt p (1/2) with h | h
    · rw [abs_of_nonpos (by linarith : p - 1/2 ≤ (0:ℚ))]; linarith
    · rw [abs_of_nonneg (by linarith : (0:ℚ) ≤ p - 1/2)]; linarith

/-! ## C8 — idempotence of jumpToFrame / jumpToProgress -/

/-- C8: calling `jumpToFrame` (resp. `jumpToProgress`) twice in succession
with the same argument yields the same state (`currentFrame`, `targetFrame`,
`velocity`) and the same drawn frame index as a single call. -/
theorem c8_jump_idempotent (F : ℕ) (x pct : ℚ) (st : ForestScroller.ScrollerState) :
    ForestScroller.jumpToFrame F x (ForestScroller.jumpToFrame F x st).1 =
      ForestScroller.jumpToFrame F x st ∧
    ForestScroller.jumpToProgress F pct (ForestScroller.jumpToProgress F pct st).1 =
      ForestScroller.jumpToProgress F pct st := by
  constructor <;> rfl

/-! ## C10 — scroll progress is 0 when there is no scrollable extent -/

/-- C10: when the document scroll height minus the viewport height is zero or
negative, `updateScrollPosition` defines the normalized progress to be 0 (the
guarded branch, no division is attempted) and hence sets `targetFrame = 0`. -/
theorem c10_no_scrollable_extent (cfg : ForestScroller.Config)
    (docScrollHeight innerHeight pageYOffset : ℚ)
    (h : docScrollHeight - innerHeight ≤ 0) :
    (ForestScroller.updateScrollPosition cfg docScrollHeight innerHeight pageYOffset).1 = 0 ∧
    (ForestScroller.updateScrollPosition cfg docScrollHeight innerHeight pageYOffset).2 = 0 := by
  have hng : ¬ docScrollHeight - innerHeight > 0 := not_lt.mpr h
  constructor
  · simp [ForestScroller.updateScrollPosition, hng]
  · simp [ForestScroller.updateScrollPosition, hng, ForestScroller.easeInOutCubic]

/-- Witness for C10: a 500px document inside an 800px viewport has no
scrollable extent; progress and targetFrame are 0. -/
theorem c10_no_scrollable_extent_witness :
    (ForestScroller.updateScrollPosition ⟨120, 1/10, 5, 60, 768⟩ 500 800 100).1 = 0 ∧
    (ForestScroller.updateScrollPosition ⟨120, 1/10, 5, 60, 768⟩ 500 800 100).2 = 0 :=
  c10_no_scrollable_extent ⟨120, 1/10, 5, 60, 768⟩ 500 800 100 (by norm_num)

/-! ## C9 — the `smoothing` configuration option is dead -/

/-- C9: two configurations that differ only in `smoothing` are
observationally identical: every draw-loop trajectory (hence velocity,
currentFrame and targetFrame at every tick), every scroll-derived target
computation and every `getMetrics()` snapshot coincide, because the loop uses
the adaptive constants 0.12/0.06 and never reads `config.smoothing`. -/
theorem c9_smoothing_unused (cfg : ForestScroller.Config) (σ sv : ℚ)
    (st : ForestScroller.ScrollerState) (n : ℕ)
    (docScrollHeight innerHeight pageYOffset fps : ℚ) (loadedCount : ℕ)
    (isMobile : Bool) :
    (ForestScroller.animate { cfg with smoothing := σ } sv)^[n] st =
      (ForestScroller.animate cfg sv)^[n] st ∧
    ForestScroller.updateScrollPosition { cfg with smoothing := σ }
        docScrollHeight innerHeight pageYOffset =
      ForestScroller.updateScrollPosition cfg docScrollHeight innerHeight pageYOffset ∧
    ForestScroller.getMetrics { cfg with smoothing := σ } fps loadedCount isMobile st =
      ForestScroller.getMetrics cfg fps loadedCount isMobile st := by
  have hfun : ForestScroller.animate { cfg with smoothing := σ } sv =
      ForestScroller.animate cfg sv := by
    funext s₀
    cases cfg
    rfl
  refine ⟨by rw [hfun], ?_, ?_⟩ <;> · cases cfg; rfl

/-! ## C3 — particle/sparkle wrap positions -/

lemma ForestAmbient.wrapAroundScreen_band (W H rand : ℚ) (hW : 0 ≤ W) (hH : 0 ≤ H)
    (hr0 : 0 ≤ rand) (hr1 : rand ≤ 1) (px py : ℚ) (hy : -10 ≤ py) :
    (-10 ≤ (ForestAmbient.wrapAroundScreen W H rand (px, py)).1 ∧
      (ForestAmbient.wrapAroundScreen W H rand (px, py)).1 ≤ W + 10) ∧
    (-10 ≤ (ForestAmbient.wrapAroundScreen W H rand (px, py)).2 ∧
      (ForestAmbient.wrapAroundScreen W H rand (px, py)).2 ≤ H + 10) := by
  have hrW0 : 0 ≤ rand * W := mul_nonneg hr0 hW
  have hrW1 : rand * W ≤ W := by nlinarith
  simp only [ForestAmbient.wrapAroundScreen]
  split_ifs <;>
    refine ⟨⟨?_, ?_⟩, ?_, ?_⟩ <;>
    simp only [Prod.fst, Prod.snd] at * <;>
    linarith

/-! ## C3 counterexample and amended band invariant -/

/-- C3 counterexample: with a 100×100 viewport, a particle at `(111, 50)`
moving with `speedX = 1`, `speedY = 1/2`, `depth = 0`, velocity factor 1 is
wrapped on this tick to `x = -10` (just past the right edge check), and on the
next tick sits at `x = -9`, which is not within the visible bounds
`[0, innerWidth]` — contradicting the claim that a wrapped entity lies inside
the visible viewport on the next tick. -/
theorem c3_counterexample :
    ForestAmbient.particleTick 100 100 0 1 (1/2) 0 1 (111, 50) = (-10, 101/2) ∧
    ForestAmbient.particleTick 100 100 0 1 (1/2) 0 1
        (ForestAmbient.particleTick 100 100 0 1 (1/2) 0 1 (111, 50)) = (-9, 51) ∧
    ¬ (0 ≤ (-9 : ℚ) ∧ (-9 : ℚ) ≤ 100) := by
  refine ⟨?_, ?_, by norm_num⟩ <;>
    norm_num [ForestAmbient.particleTick, ForestAmbient.wrapAroundScreen]

/-- C3 (amended): the wrap logic does not confine entities to the visible
viewport `[0, innerWidth] × [0, innerHeight]`; the invariant it actually
maintains is the extended band `[-10, innerWidth+10] × [-10, innerHeight+10]`
(the ±10 wrap margin): after every `drawParticles`/`drawSparkles` position
update — whether or not a wrap fired — a particle or sparkle whose `y` was at
least −10 and whose vertical motion is non-negative (speedY, depth and the
velocity multiplier are all non-negative in the code) stays inside that band,
so no entity escapes permanently off-screen. -/
theorem c3_wrap_band (innerWidth innerHeight rand speedX speedY depth velocityFactor x y : ℚ)
    (hW : 0 ≤ innerWidth) (hH : 0 ≤ innerHeight) (hr0 : 0 ≤ rand) (hr1 : rand ≤ 1)
    (hy : -10 ≤ y) (hsy : 0 ≤ speedY) (hd : 0 ≤ depth) (hv : 0 ≤ velocityFactor) :
    ((-10 ≤ (ForestAmbient.particleTick innerWidth innerHeight rand speedX speedY depth
        velocityFactor (x, y)).1 ∧
      (ForestAmbient.particleTick innerWidth innerHeight rand speedX speedY depth
        velocityFactor (x, y)).1 ≤ innerWidth + 10) ∧
     (-10 ≤ (ForestAmbient.particleTick innerWidth innerHeight rand speedX speedY depth
        velocityFactor (x, y)).2 ∧
      (ForestAmbient.particleTick innerWidth innerHeight rand speedX speedY depth
        velocityFactor (x, y)).2 ≤ innerHeight + 10)) ∧
    ((-10 ≤ (ForestAmbient.sparkleTick innerWidth innerHeight rand speedX speedY depth
        velocityFactor (x, y)).1 ∧
      (ForestAmbient.sparkleTick innerWidth innerHeight rand speedX speedY depth
        velocityFactor (x, y)).1 ≤ innerWidth + 10) ∧
     (-10 ≤ (ForestAmbient.sparkleTick innerWidth innerHeight rand speedX speedY depth
        velocityFactor (x, y)).2 ∧
      (ForestAmbient.sparkleTick innerWidth innerHeight rand speedX speedY depth
        velocityFactor (x, y)).2 ≤ innerHeight + 10)) := by
  have pband := ForestAmbient.wrapAroundScreen_band innerWidth innerHeight rand hW hH
    hr0 hr1 (x + speedX * (1 + depth) * velocityFactor)
    (y + speedY * (1 + depth) * velocityFactor)
    (by have := mul_nonneg (mul_nonneg hsy (by linarith : (0:ℚ) ≤ 1 + depth)) hv
        linarith)
  have sband := ForestAmbient.wrapAroundScreen_band innerWidth innerHeight rand hW hH
    hr0 hr1 (x + speedX * velocityFactor * (8/10 + depth * (4/10)))
    (y + speedY * velocityFactor * (8/10 + depth * (4/10)))
    (by have := mul_nonneg (mul_nonneg hsy hv)
          (by linarith : (0:ℚ) ≤ 8/10 + depth * (4/10))
        linarith)
  exact ⟨pband, sband⟩

/-- Witness for C3 (amended): a particle and a sparkle at `(111, 50)` in a
100×100 viewport stay inside the ±10 band after one tick. -/
theorem c3_wrap_band_witness :
    ((-10 ≤ (ForestAmbient.particleTick 100 100 0 1 (1/2) 0 1 (111, 50)).1 ∧
      (ForestAmbient.particleTick 100 100 0 1 (1/2) 0 1 (111, 50)).1 ≤ 100 + 10) ∧
     (-10 ≤ (ForestAmbient.particleTick 100 100 0 1 (1/2) 0 1 (111, 50)).2 ∧
      (ForestAmbient.particleTick 100 100 0 1 (1/2) 0 1 (111, 50)).2 ≤ 100 + 10)) ∧
    ((-10 ≤ (ForestAmbient.sparkleTick 100 100 0 1 (1/2) 0 1 (111, 50)).1 ∧
      (ForestAmbient.sparkleTick 100 100 0 1 (1/2) 0 1 (111, 50)).1 ≤ 100 + 10) ∧
     (-10 ≤ (ForestAmbient.sparkleTick 100 100 0 1 (1/2) 0 1 (111, 50)).2 ∧
      (ForestAmbient.sparkleTick 100 100 0 1 (1/2) 0 1 (111, 50)).2 ≤ 100 + 10)) :=
  c3_wrap_band 100 100 0 1 (1/2) 0 1 111 50 (by norm_num) (by norm_num) (by norm_num)
    (by norm_num) (by norm_num) (by norm_num) (by norm_num) (by norm_num)

/-! ## C2 — convergence of the draw-loop spring -/

namespace ForestScroller

lemma jsRound_intCast (n : ℤ) : jsRound (n : ℚ) = n := by
  unfold jsRound
  rw [add_comm, Int.floor_add_int]
  norm_num

lemma jsRound_eq_zero {x : ℚ} (h1 : -(1/2) ≤ x) (h2 : x < 1/2) : jsRound x = 0 := by
  unfold jsRound
  rw [Int.floor_eq_zero_iff]
  constructor <;> simp <;> linarith

lemma jsRound_cast_sub_intCast (x : ℚ) (n : ℤ) :
    ((jsRound x : ℤ) : ℚ) - (n : ℚ) = ((jsRound (x - n) : ℤ) : ℚ) := by
  unfold jsRound
  rw [show x - (n : ℚ) + 1/2 = x + 1/2 - (n : ℚ) by ring, Int.floor_sub_int]
  push_cast
  ring

lemma jsRound_nonneg {x : ℚ} (h : 0 ≤ x) : 0 ≤ jsRound x :=
  Int.le_floor.mpr (by push_cast; linarith)

lemma jsRound_le_of_le {x : ℚ} {n : ℤ} (h : x ≤ (n : ℚ)) : jsRound x ≤ n := by
  have : jsRound x < n + 1 := by
    unfold jsRound
    rw [Int.floor_lt]
    push_cast
    linarith
  omega

lemma lyapQ_nonneg {q e v : ℚ} (h0 : 0 < q) (h1 : q ≤ 1) : 0 ≤ lyapQ q e v := by
  unfold lyapQ
  have hd : 0 ≤ (1 - q) / q := div_nonneg (by linarith) (le_of_lt h0)
  positivity

lemma sq_le_lyapQ {q e v : ℚ} (h0 : 0 < q) (h1 : q ≤ 1) : e ^ 2 ≤ lyapQ q e v := by
  unfold lyapQ
  have hd : 0 ≤ (1 - q) / q := div_nonneg (by linarith) (le_of_lt h0)
  nlinarith [sq_nonneg v]

/-- The un-clamped, un-snapped spring update contracts `lyapQ q` by `1 - q`
whenever `0 < q ≤ 1/4`. -/
lemma lyapQ_linear_step {q : ℚ} (e v : ℚ) (h0 : 0 < q) (h4 : q ≤ 1/4) :
    lyapQ q (e + ((3/4) * v - q * e)) ((3/4) * v - q * e) ≤ (1 - q) * lyapQ q e v := by
  have hne : q ≠ 0 := ne_of_gt h0
  have key : (1 - q) * lyapQ q e v -
      lyapQ q (e + ((3/4) * v - q * e)) ((3/4) * v - q * e) =
      ((1 - q) ^ 2 - 9/16) / q * v ^ 2 := by
    unfold lyapQ
    field_simp
    ring
  have hnum : 0 ≤ (1 - q) ^ 2 - 9/16 := by nlinarith
  have : 0 ≤ ((1 - q) ^ 2 - 9/16) / q * v ^ 2 := by positivity
  linarith

/-- Clamping to an interval that contains the (integer) target does not move
the frame away from the target. -/
lemma clamp_dist_le {lo hi t x : ℚ} (h1 : lo ≤ t) (h2 : t ≤ hi) :
    |max lo (min x hi) - t| ≤ |x - t| := by
  rcases le_total x hi with hxh | hxh
  · rw [min_eq_left hxh]
    rcases le_total lo x with hlx | hlx
    · rw [max_eq_right hlx]
    · rw [max_eq_left hlx]
      rw [abs_of_nonpos (by linarith), abs_of_nonpos (by linarith)]
      linarith
  · rw [min_eq_right hxh, max_eq_right (le_trans h1 h2)]
    rw [abs_of_nonneg (by linarith), abs_of_nonneg (by linarith)]
    linarith

lemma animateStep_velocity_eq (F : ℕ) (s : ℚ) (st : ScrollerState) :
    (animateStep F s st).velocity =
      (st.velocity + (st.targetFrame - st.currentFrame) * s) * (3/4) := rfl

lemma animateStep_targetFrame_eq (F : ℕ) (s : ℚ) (st : ScrollerState) :
    (animateStep F s st).targetFrame = st.targetFrame := rfl

lemma animateStep_currentFrame_eq (F : ℕ) (s : ℚ) (st : ScrollerState) :
    (animateStep F s st).currentFrame =
      (if |(st.velocity + (st.targetFrame - st.currentFrame) * s) * (3/4)| <
          velocityThreshold
       then ((jsRound (max 0 (min (st.currentFrame +
          (st.velocity + (st.targetFrame - st.currentFrame) * s) * (3/4))
          ((F : ℚ) - 1))) : ℤ) : ℚ)
       else max 0 (min (st.currentFrame +
          (st.velocity + (st.targetFrame - st.currentFrame) * s) * (3/4))
          ((F : ℚ) - 1))) := rfl

lemma iterate_targetFrame (F : ℕ) (s : ℚ) (st : ScrollerState) (n : ℕ) :
    ((animateStep F s)^[n] st).targetFrame = st.targetFrame := by
  induction n with
  | zero => rfl
  | succ n ih => rw [Function.iterate_succ_apply', animateStep_targetFrame_eq, ih]

end ForestScroller

namespace ForestScroller

/-- A clamped frame within 1/2 of the integer target rounds exactly to the
target. -/
lemma jsRound_clamped_eq_target (c2 : ℚ) (T : ℤ) (habs : |c2 - (T : ℚ)| < 1/2) :
    ((jsRound c2 : ℤ) : ℚ) = (T : ℚ) := by
  have hrzero : jsRound (c2 - (T : ℚ)) = 0 := by
    rcases abs_lt.mp habs with ⟨hl, hr⟩
    exact jsRound_eq_zero (by linarith) hr
  have hsub := jsRound_cast_sub_intCast c2 T
  rw [hrzero] at hsub
  push_cast at hsub
  linarith

/-- The clamped spring update (before any snap) contracts `lyapQ` by `1 - q`:
the linear contraction `lyapQ_linear_step` composed with the fact that
clamping to `[0, totalFrames-1]`, an interval containing the target, cannot
increase the error term. -/
lemma clamp_lyap_contract (s : ℚ) (h0 : 0 < 3 * s / 4) (h4 : 3 * s / 4 ≤ 1/4)
    (F : ℕ) (T : ℤ) (hT0 : 0 ≤ (T : ℚ)) (hT1 : (T : ℚ) ≤ (F : ℚ) - 1)
    (c v v1 c2 : ℚ)
    (hv1 : v1 = (3/4) * v - 3 * s / 4 * (c - (T : ℚ)))
    (hc2 : c2 = max 0 (min (c + v1) ((F : ℚ) - 1))) :
    lyapQ (3 * s / 4) (c2 - (T : ℚ)) v1 ≤
      (1 - 3 * s / 4) * lyapQ (3 * s / 4) (c - (T : ℚ)) v := by
  have hlin : lyapQ (3 * s / 4) ((c - (T : ℚ)) + v1) v1 ≤
      (1 - 3 * s / 4) * lyapQ (3 * s / 4) (c - (T : ℚ)) v := by
    have := lyapQ_linear_step (q := 3 * s / 4) (c - (T : ℚ)) v h0 h4
    rw [hv1]
    exact this
  have hclamp : |c2 - (T : ℚ)| ≤ |c + v1 - (T : ℚ)| := by
    rw [hc2]
    exact clamp_dist_le hT0 hT1
  have he1 : c + v1 - (T : ℚ) = (c - (T : ℚ)) + v1 := by ring
  have hsq : (c2 - (T : ℚ)) ^ 2 ≤ ((c - (T : ℚ)) + v1) ^ 2 := by
    rw [← sq_abs (c2 - (T : ℚ)), ← sq_abs ((c - (T : ℚ)) + v1)]
    exact pow_le_pow_left₀ (abs_nonneg _) (he1 ▸ hclamp) 2
  have hexp1 : lyapQ (3 * s / 4) (c2 - (T : ℚ)) v1 =
      (c2 - (T : ℚ)) ^ 2 + (1 - 3 * s / 4) / (3 * s / 4) * v1 ^ 2 := rfl
  have hexp2 : lyapQ (3 * s / 4) ((c - (T : ℚ)) + v1) v1 =
      ((c - (T : ℚ)) + v1) ^ 2 + (1 - 3 * s / 4) / (3 * s / 4) * v1 ^ 2 := rfl
  linarith [hexp1, hexp2]

/-- One draw-loop tick from a state inside the Lyapunov basin either lands in
the absorbing set (the snap fires with the clamped frame within 1/2 of the
integer target, so it rounds exactly to the target) or contracts the
Lyapunov function by `1 - q` while leaving the velocity at or above the snap
threshold. -/
lemma step_analysis (s : ℚ) (h0 : 0 < 3 * s / 4) (h4 : 3 * s / 4 ≤ 1/4)
    (F : ℕ) (T : ℤ) (hT0 : 0 ≤ (T : ℚ)) (hT1 : (T : ℚ) ≤ (F : ℚ) - 1)
    (st : ScrollerState) (hTt : st.targetFrame = (T : ℚ))
    (hB : lyapQ (3 * s / 4) (st.currentFrame - (T : ℚ)) st.velocity < 1/4) :
    converged T (animateStep F s st) ∨
      (lyapQ (3 * s / 4) ((animateStep F s st).currentFrame - (T : ℚ))
          (animateStep F s st).velocity ≤
        (1 - 3 * s / 4) * lyapQ (3 * s / 4) (st.currentFrame - (T : ℚ)) st.velocity ∧
       velocityThreshold ≤ |(animateStep F s st).velocity|) := by
  have hW : (st.velocity + (st.targetFrame - st.currentFrame) * s) * (3/4) =
      (3/4) * st.velocity - 3 * s / 4 * (st.currentFrame - (T : ℚ)) := by
    rw [hTt]; ring
  have hvel : (animateStep F s st).velocity =
      (3/4) * st.velocity - 3 * s / 4 * (st.currentFrame - (T : ℚ)) := by
    rw [animateStep_velocity_eq, hW]
  have hcur : (animateStep F s st).currentFrame =
      (if |(3/4) * st.velocity - 3 * s / 4 * (st.currentFrame - (T : ℚ))| <
          velocityThreshold
       then ((jsRound (max 0 (min (st.currentFrame +
          ((3/4) * st.velocity - 3 * s / 4 * (st.currentFrame - (T : ℚ))))
          ((F : ℚ) - 1))) : ℤ) : ℚ)
       else max 0 (min (st.currentFrame +
          ((3/4) * st.velocity - 3 * s / 4 * (st.currentFrame - (T : ℚ))))
          ((F : ℚ) - 1))) := by
    rw [animateStep_currentFrame_eq, hW]
  have hcontract := clamp_lyap_contract s h0 h4 F T hT0 hT1
    st.currentFrame st.velocity
    ((3/4) * st.velocity - 3 * s / 4 * (st.currentFrame - (T : ℚ)))
    (max 0 (min (st.currentFrame +
        ((3/4) * st.velocity - 3 * s / 4 * (st.currentFrame - (T : ℚ))))
      ((F : ℚ) - 1))) rfl rfl
  by_cases hsnap :
      |(3/4) * st.velocity - 3 * s / 4 * (st.currentFrame - (T : ℚ))| <
        velocityThreshold
  · left
    have hQnn := lyapQ_nonneg
      (e := st.currentFrame - (T : ℚ)) (v := st.velocity) h0 (by linarith)
    have hsqle := sq_le_lyapQ
      (e := max 0 (min (st.currentFrame +
          ((3/4) * st.velocity - 3 * s / 4 * (st.currentFrame - (T : ℚ))))
        ((F : ℚ) - 1)) - (T : ℚ))
      (v := (3/4) * st.velocity - 3 * s / 4 * (st.currentFrame - (T : ℚ)))
      h0 (by linarith)
    have hsqlt : (max 0 (min (st.currentFrame +
        ((3/4) * st.velocity - 3 * s / 4 * (st.currentFrame - (T : ℚ))))
      ((F : ℚ) - 1)) - (T : ℚ)) ^ 2 < 1/4 := by
      nlinarith
    have habs : |max 0 (min (st.currentFrame +
        ((3/4) * st.velocity - 3 * s / 4 * (st.currentFrame - (T : ℚ))))
      ((F : ℚ) - 1)) - (T : ℚ)| < 1/2 := by
      by_contra hcon
      push_neg at hcon
      nlinarith [abs_nonneg (max 0 (min (st.currentFrame +
          ((3/4) * st.velocity - 3 * s / 4 * (st.currentFrame - (T : ℚ))))
        ((F : ℚ) - 1)) - (T : ℚ)),
        sq_abs (max 0 (min (st.currentFrame +
          ((3/4) * st.velocity - 3 * s / 4 * (st.currentFrame - (T : ℚ))))
        ((F : ℚ) - 1)) - (T : ℚ))]
    refine ⟨?_, ?_⟩
    · rw [hcur, if_pos hsnap]
      exact jsRound_clamped_eq_target _ T habs
    · rw [hvel]
      exact hsnap
  · right
    refine ⟨?_, ?_⟩
    · rw [hcur, if_neg hsnap, hvel]
      exact hcontract
    · rw [hvel]
      exact not_lt.mp hsnap

/-- The absorbing set is invariant under the draw-loop tick: from
`currentFrame = T` with `|velocity|` under the snap threshold, the next tick
has velocity `(3/4)·velocity` (still under the threshold) and snaps the
clamped frame — at most `|velocity| < 1/2` away from `T` — back to `T`. -/
lemma converged_step (s : ℚ) (F : ℕ) (T : ℤ)
    (hT0 : 0 ≤ (T : ℚ)) (hT1 : (T : ℚ) ≤ (F : ℚ) - 1)
    (st : ScrollerState) (hTt : st.targetFrame = (T : ℚ))
    (hc : converged T st) : converged T (animateStep F s st) := by
  obtain ⟨hcT, hcv⟩ := hc
  have hthr : velocityThreshold = 1/20 := rfl
  have hW : (st.velocity + (st.targetFrame - st.currentFrame) * s) * (3/4) =
      (3/4) * st.velocity := by
    rw [hTt, hcT]; ring
  have hvel : (animateStep F s st).velocity = (3/4) * st.velocity := by
    rw [animateStep_velocity_eq, hW]
  have habs34 : |(3/4) * st.velocity| = (3/4) * |st.velocity| := by
    rw [abs_mul]
    norm_num
  have hsnap : |(3/4) * st.velocity| < velocityThreshold := by
    rw [habs34, hthr]
    rw [hthr] at hcv
    linarith [abs_nonneg st.velocity]
  have hcur : (animateStep F s st).currentFrame =
      ((jsRound (max 0 (min (st.currentFrame + (3/4) * st.velocity)
        ((F : ℚ) - 1))) : ℤ) : ℚ) := by
    rw [animateStep_currentFrame_eq, hW, if_pos hsnap]
  have hclamp : |max 0 (min (st.currentFrame + (3/4) * st.velocity)
      ((F : ℚ) - 1)) - (T : ℚ)| ≤
      |st.currentFrame + (3/4) * st.velocity - (T : ℚ)| :=
    clamp_dist_le hT0 hT1
  have hmoved : |st.currentFrame + (3/4) * st.velocity - (T : ℚ)| =
      |(3/4) * st.velocity| := by
    rw [hcT]
    congr 1
    ring
  have habs : |max 0 (min (st.currentFrame + (3/4) * st.velocity)
      ((F : ℚ) - 1)) - (T : ℚ)| < 1/2 := by
    rw [hmoved, habs34] at hclamp
    rw [hthr] at hcv
    linarith [abs_nonneg st.velocity]
  refine ⟨?_, ?_⟩
  · rw [hcur]
    exact jsRound_clamped_eq_target _ T habs
  · rw [hvel]
    exact hsnap

end ForestScroller

namespace ForestScroller

/-- From any state in the Lyapunov basin, some iterate of the draw-loop tick
lands in the absorbing set: otherwise every tick would contract `lyapQ`
geometrically while keeping `|velocity|` at or above the snap threshold, and
after 60 ticks the contracted value drops below the velocity contribution
alone. -/
lemma reach_converged (s : ℚ) (h0 : 0 < 3 * s / 4) (h4 : 3 * s / 4 ≤ 1/4)
    (F : ℕ) (T : ℤ) (hT0 : 0 ≤ (T : ℚ)) (hT1 : (T : ℚ) ≤ (F : ℚ) - 1)
    (st₀ : ScrollerState) (hTt : st₀.targetFrame = (T : ℚ))
    (hB : lyapQ (3 * s / 4) (st₀.currentFrame - (T : ℚ)) st₀.velocity < 1/4)
    (hnum : (1 - 3 * s / 4) ^ 60 * (1/4) ≤
      (1 - 3 * s / 4) / (3 * s / 4) * (1/400)) :
    ∃ n, converged T ((animateStep F s)^[n] st₀) := by
  by_contra hno
  push_neg at hno
  have htgt : ∀ n, ((animateStep F s)^[n] st₀).targetFrame = (T : ℚ) := fun n => by
    rw [iterate_targetFrame]; exact hTt
  have hmain : ∀ n,
      lyapQ (3 * s / 4) (((animateStep F s)^[n] st₀).currentFrame - (T : ℚ))
        ((animateStep F s)^[n] st₀).velocity ≤
        (1 - 3 * s / 4) ^ n *
          lyapQ (3 * s / 4) (st₀.currentFrame - (T : ℚ)) st₀.velocity ∧
      lyapQ (3 * s / 4) (((animateStep F s)^[n] st₀).currentFrame - (T : ℚ))
        ((animateStep F s)^[n] st₀).velocity < 1/4 := by
    intro n
    induction n with
    | zero =>
      refine ⟨?_, ?_⟩
      · rw [Function.iterate_zero_apply, pow_zero, one_mul]
      · rw [Function.iterate_zero_apply]
        exact hB
    | succ n ih =>
      rcases step_analysis s h0 h4 F T hT0 hT1 _ (htgt n) ih.2 with hconv | ⟨hle, _⟩
      · exfalso
        apply hno (n + 1)
        rw [Function.iterate_succ_apply']
        exact hconv
      · have hq1 : (0 : ℚ) ≤ 1 - 3 * s / 4 := by linarith
        have hLn := lyapQ_nonneg
          (e := ((animateStep F s)^[n] st₀).currentFrame - (T : ℚ))
          (v := ((animateStep F s)^[n] st₀).velocity) h0 (by linarith)
        have hle' : lyapQ (3 * s / 4)
            (((animateStep F s)^[n + 1] st₀).currentFrame - (T : ℚ))
            ((animateStep F s)^[n + 1] st₀).velocity ≤
            (1 - 3 * s / 4) *
              lyapQ (3 * s / 4)
                (((animateStep F s)^[n] st₀).currentFrame - (T : ℚ))
                ((animateStep F s)^[n] st₀).velocity := by
          rw [Function.iterate_succ_apply']
          exact hle
        refine ⟨?_, ?_⟩
        · exact le_trans hle'
            (le_trans (mul_le_mul_of_nonneg_left ih.1 hq1) (le_of_eq (by ring)))
        · nlinarith [ih.2, hle', hLn, h0]
  have hstep60 : (animateStep F s)^[60] st₀ =
      animateStep F s ((animateStep F s)^[59] st₀) := by
    rw [show (60 : ℕ) = 59 + 1 from rfl, Function.iterate_succ_apply']
  rcases step_analysis s h0 h4 F T hT0 hT1 _ (htgt 59) (hmain 59).2 with hconv | ⟨_, hvel⟩
  · exact absurd (hstep60 ▸ hconv) (hno 60)
  · rw [← hstep60] at hvel
    have hvthr : velocityThreshold = 1/20 := rfl
    rw [hvthr] at hvel
    have hvsq : (1/400 : ℚ) ≤ ((animateStep F s)^[60] st₀).velocity ^ 2 := by
      nlinarith [sq_abs (((animateStep F s)^[60] st₀).velocity),
        abs_nonneg (((animateStep F s)^[60] st₀).velocity)]
    have hdnn : (0 : ℚ) ≤ (1 - 3 * s / 4) / (3 * s / 4) :=
      div_nonneg (by linarith) (by linarith)
    have hexp : lyapQ (3 * s / 4)
        (((animateStep F s)^[60] st₀).currentFrame - (T : ℚ))
        ((animateStep F s)^[60] st₀).velocity =
        (((animateStep F s)^[60] st₀).currentFrame - (T : ℚ)) ^ 2 +
          (1 - 3 * s / 4) / (3 * s / 4) *
            ((animateStep F s)^[60] st₀).velocity ^ 2 := rfl
    have hlow : (1 - 3 * s / 4) / (3 * s / 4) * (1/400) ≤
        lyapQ (3 * s / 4) (((animateStep F s)^[60] st₀).currentFrame - (T : ℚ))
          ((animateStep F s)^[60] st₀).velocity := by
      rw [hexp]
      nlinarith [sq_nonneg (((animateStep F s)^[60] st₀).currentFrame - (T : ℚ)),
        mul_le_mul_of_nonneg_left hvsq hdnn]
    have hup := (hmain 60).1
    have hpowpos : (0 : ℚ) < (1 - 3 * s / 4) ^ 60 := pow_pos (by linarith) 60
    have hstrict : (1 - 3 * s / 4) ^ 60 *
        lyapQ (3 * s / 4) (st₀.currentFrame - (T : ℚ)) st₀.velocity <
        (1 - 3 * s / 4) ^ 60 * (1/4) :=
      mul_lt_mul_of_pos_left hB hpowpos
    linarith

end ForestScroller

namespace ForestScroller

/-- With the target held at `1/2` (totalFrames = 2, slow smoothing tier), the
draw loop can never satisfy "`currentFrame = round(targetFrame) = 1` and
`|velocity| < 0.05`" for 6 consecutive ticks: while it holds, the velocity
recursion is `v ← (3/4)·v - 9/400`, which forces the velocity below `-0.05`
within five steps. -/
lemma half_target_escape (st : ScrollerState) (hTt : st.targetFrame = 1/2) :
    ∃ k, 1 ≤ k ∧ k ≤ 6 ∧
      ¬ (|((animateStep 2 (3/50))^[k] st).velocity| < velocityThreshold ∧
         ((animateStep 2 (3/50))^[k] st).currentFrame = 1) := by
  by_contra hall
  push_neg at hall
  have htgt : ∀ k, ((animateStep 2 (3/50))^[k] st).targetFrame = 1/2 := fun k => by
    rw [iterate_targetFrame]; exact hTt
  have hthr : velocityThreshold = 1/20 := rfl
  have hvstep : ∀ k, 1 ≤ k → k ≤ 5 →
      ((animateStep 2 (3/50))^[k + 1] st).velocity =
        (3/4) * ((animateStep 2 (3/50))^[k] st).velocity - 9/400 := by
    intro k hk1 hk5
    have hck : ((animateStep 2 (3/50))^[k] st).currentFrame = 1 :=
      (hall k hk1 (by omega)).2
    rw [Function.iterate_succ_apply', animateStep_velocity_eq, htgt, hck]
    ring
  have h1 := (hall 1 (by norm_num) (by norm_num)).1
  have h2 := hvstep 1 (by norm_num) (by norm_num)
  have h3 := hvstep 2 (by norm_num) (by norm_num)
  have h4 := hvstep 3 (by norm_num) (by norm_num)
  have h5 := hvstep 4 (by norm_num) (by norm_num)
  have h6 := hvstep 5 (by norm_num) (by norm_num)
  have h6b := (hall 6 (by norm_num) (by norm_num)).1
  rw [hthr] at h1 h6b
  rcases abs_lt.mp h1 with ⟨h1l, h1r⟩
  rcases abs_lt.mp h6b with ⟨h6l, h6r⟩
  rw [show (1 : ℕ) + 1 = 2 from rfl] at h2
  rw [show (2 : ℕ) + 1 = 3 from rfl] at h3
  rw [show (3 : ℕ) + 1 = 4 from rfl] at h4
  rw [show (4 : ℕ) + 1 = 5 from rfl] at h5
  rw [show (5 : ℕ) + 1 = 6 from rfl] at h6
  linarith

end ForestScroller

/-- C6: `0 ≤ currentFrame ≤ totalFrames-1` is established at construction
(`currentFrame = 0`) and preserved unconditionally by every mutator of
`currentFrame`: each draw-loop tick (spring update, clamp, integer snap),
`jumpToFrame` with any real argument, and `jumpToProgress` with any
percentage argument. -/
theorem c6_playback_invariant (F : ℕ) (hF : 1 ≤ F) :
    ((0 : ℚ) ≤ 0 ∧ (0 : ℚ) ≤ (F : ℚ) - 1) ∧
    (∀ (s : ℚ) (st : ForestScroller.ScrollerState),
      0 ≤ (ForestScroller.animateStep F s st).currentFrame ∧
      (ForestScroller.animateStep F s st).currentFrame ≤ (F : ℚ) - 1) ∧
    (∀ (x : ℚ) (st : ForestScroller.ScrollerState),
      0 ≤ (ForestScroller.jumpToFrame F x st).1.currentFrame ∧
      (ForestScroller.jumpToFrame F x st).1.currentFrame ≤ (F : ℚ) - 1) ∧
    (∀ (p : ℚ) (st : ForestScroller.ScrollerState),
      0 ≤ (ForestScroller.jumpToProgress F p st).1.currentFrame ∧
      (ForestScroller.jumpToProgress F p st).1.currentFrame ≤ (F : ℚ) - 1) := by
  have hF1 : (0 : ℚ) ≤ (F : ℚ) - 1 := by
    have : (1 : ℚ) ≤ (F : ℚ) := by exact_mod_cast hF
    linarith
  have hclamp : ∀ x : ℚ, 0 ≤ max 0 (min x ((F : ℚ) - 1)) ∧
      max 0 (min x ((F : ℚ) - 1)) ≤ (F : ℚ) - 1 := fun x =>
    ⟨le_max_left _ _, max_le hF1 (min_le_right _ _)⟩
  have hsnapb : ∀ x : ℚ, 0 ≤ x → x ≤ (F : ℚ) - 1 →
      0 ≤ ((ForestScroller.jsRound x : ℤ) : ℚ) ∧
      ((ForestScroller.jsRound x : ℤ) : ℚ) ≤ (F : ℚ) - 1 := by
    intro x hx0 hx1
    constructor
    · exact_mod_cast ForestScroller.jsRound_nonneg hx0
    · have hle : ForestScroller.jsRound x ≤ (F : ℤ) - 1 :=
        ForestScroller.jsRound_le_of_le (by push_cast; linarith)
      exact_mod_cast hle
  refine ⟨⟨le_refl 0, hF1⟩, fun s st => ?_, fun x st => hclamp x, fun p st => hclamp _⟩
  rw [ForestScroller.animateStep_currentFrame_eq]
  split_ifs with h
  · exact hsnapb _ (hclamp _).1 (hclamp _).2
  · exact hclamp _

/-- Witness for C6 at `totalFrames = 2`: one tick, one `jumpToFrame 5`, and
one `jumpToProgress 250` from the construction state stay within range. -/
theorem c6_playback_invariant_witness :
    (0 ≤ (ForestScroller.animateStep 2 (3/50)
        (⟨0, 0, 0⟩ : ForestScroller.ScrollerState)).currentFrame ∧
      (ForestScroller.animateStep 2 (3/50)
        (⟨0, 0, 0⟩ : ForestScroller.ScrollerState)).currentFrame ≤
        ((2 : ℕ) : ℚ) - 1) ∧
    (0 ≤ (ForestScroller.jumpToFrame 2 5
        (⟨0, 0, 0⟩ : ForestScroller.ScrollerState)).1.currentFrame ∧
      (ForestScroller.jumpToFrame 2 5
        (⟨0, 0, 0⟩ : ForestScroller.ScrollerState)).1.currentFrame ≤
        ((2 : ℕ) : ℚ) - 1) ∧
    (0 ≤ (ForestScroller.jumpToProgress 2 250
        (⟨0, 0, 0⟩ : ForestScroller.ScrollerState)).1.currentFrame ∧
      (ForestScroller.jumpToProgress 2 250
        (⟨0, 0, 0⟩ : ForestScroller.ScrollerState)).1.currentFrame ≤
        ((2 : ℕ) : ℚ) - 1) :=
  ⟨(c6_playback_invariant 2 (by norm_num)).2.1 (3/50) ⟨0, 0, 0⟩,
   (c6_playback_invariant 2 (by norm_num)).2.2.1 5 ⟨0, 0, 0⟩,
   (c6_playback_invariant 2 (by norm_num)).2.2.2 250 ⟨0, 0, 0⟩⟩

/-! ## C1 — error handling of the preload batch -/

namespace ForestScroller

lemma loadImage_mem (outcome : ℕ → Bool) (i : ℕ) (st : LoadState) (j : ℕ) :
    j ∈ (loadImage outcome i st).1.loadedImages ↔
      j ∈ st.loadedImages ∨ (j = i ∧ outcome i = true) := by
  unfold loadImage
  split_ifs with h1 h2
  · constructor
    · exact fun hj => Or.inl hj
    · rintro (hj | ⟨rfl, _⟩)
      · exact hj
      · exact h1
  · simp only [Finset.mem_insert]
    constructor
    · rintro (rfl | hj)
      · exact Or.inr ⟨rfl, h2⟩
      · exact Or.inl hj
    · rintro (hj | ⟨rfl, _⟩)
      · exact Or.inr hj
      · exact Or.inl rfl
  · constructor
    · exact fun hj => Or.inl hj
    · rintro (hj | ⟨rfl, hoi⟩)
      · exact hj
      · exact absurd hoi (by simp [h2])

lemma loadImage_wf (outcome : ℕ → Bool) (i : ℕ) (st : LoadState)
    (hwf : st.loadedCount = st.loadedImages.card) :
    (loadImage outcome i st).1.loadedCount =
      (loadImage outcome i st).1.loadedImages.card := by
  unfold loadImage
  split_ifs with h1 h2
  · exact hwf
  · simp [Finset.card_insert_of_not_mem h1, hwf]
  · exact hwf

lemma loadImage_flag_true (outcome : ℕ → Bool) (i : ℕ) (st : LoadState)
    (h : outcome i = true) : (loadImage outcome i st).2 = true := by
  unfold loadImage
  split_ifs <;> simp_all

lemma loadImage_flag_false (outcome : ℕ → Bool) (i : ℕ) (st : LoadState)
    (h1 : i ∉ st.loadedImages) (h2 : outcome i = false) :
    (loadImage outcome i st).2 = false := by
  unfold loadImage
  split_ifs <;> simp_all

lemma loadSeq_success (outcome : ℕ → Bool) (l : List ℕ) :
    ∀ st : LoadState, (∀ i ∈ l, outcome i = true) →
      (loadSeq outcome l st).2 = true ∧
      (∀ j, j ∈ (loadSeq outcome l st).1.loadedImages ↔
        j ∈ st.loadedImages ∨ j ∈ l) ∧
      (st.loadedCount = st.loadedImages.card →
        (loadSeq outcome l st).1.loadedCount =
          (loadSeq outcome l st).1.loadedImages.card) := by
  induction l with
  | nil =>
    intro st _
    exact ⟨rfl, fun j => by simp [loadSeq], fun h => h⟩
  | cons i rest ih =>
    intro st hall
    have hflag : (loadImage outcome i st).2 = true :=
      loadImage_flag_true outcome i st (hall i (List.mem_cons_self i rest))
    have hstep : loadSeq outcome (i :: rest) st =
        loadSeq outcome rest (loadImage outcome i st).1 := by
      simp only [loadSeq, hflag]
      simp
    obtain ⟨ih1, ih2, ih3⟩ := ih (loadImage outcome i st).1
      (fun j hj => hall j (List.mem_cons_of_mem i hj))
    rw [hstep]
    refine ⟨ih1, fun j => ?_, fun hwf => ih3 (loadImage_wf outcome i st hwf)⟩
    rw [ih2 j, loadImage_mem]
    constructor
    · rintro ((hj | ⟨rfl, _⟩) | hj)
      · exact Or.inl hj
      · exact Or.inr (List.mem_cons_self _ _)
      · exact Or.inr (List.mem_cons_of_mem _ hj)
    · rintro (hj | hj)
      · exact Or.inl (Or.inl hj)
      · rcases List.mem_cons.mp hj with rfl | hj
        · exact Or.inl (Or.inr ⟨rfl, hall j (List.mem_cons_self j rest)⟩)
        · exact Or.inr hj

lemma loadAll_mem (outcome : ℕ → Bool) (l : List ℕ) :
    ∀ (st : LoadState) (j : ℕ),
      j ∈ (loadAll outcome l st).1.loadedImages ↔
        j ∈ st.loadedImages ∨ (j ∈ l ∧ outcome j = true) := by
  induction l with
  | nil => intro st j; simp [loadAll]
  | cons i rest ih =>
    intro st j
    show j ∈ (loadAll outcome rest (loadImage outcome i st).1).1.loadedImages ↔ _
    rw [ih, loadImage_mem]
    constructor
    · rintro ((hj | ⟨rfl, hoi⟩) | ⟨h1, h2⟩)
      · exact Or.inl hj
      · exact Or.inr ⟨List.mem_cons_self _ _, hoi⟩
      · exact Or.inr ⟨List.mem_cons_of_mem _ h1, h2⟩
    · rintro (hj | ⟨h1, h2⟩)
      · exact Or.inl (Or.inl hj)
      · rcases List.mem_cons.mp h1 with rfl | h1
        · exact Or.inl (Or.inr ⟨rfl, h2⟩)
        · exact Or.inr ⟨h1, h2⟩

lemma loadAll_wf (outcome : ℕ → Bool) (l : List ℕ) :
    ∀ st : LoadState, st.loadedCount = st.loadedImages.card →
      (loadAll outcome l st).1.loadedCount =
        (loadAll outcome l st).1.loadedImages.card := by
  induction l with
  | nil => intro st h; exact h
  | cons i rest ih =>
    intro st h
    exact ih (loadImage outcome i st).1 (loadImage_wf outcome i st h)

lemma loadAll_flag_false (outcome : ℕ → Bool) (k : ℕ) (hk : outcome k = false) :
    ∀ (l : List ℕ) (st : LoadState), k ∈ l → k ∉ st.loadedImages →
      (loadAll outcome l st).2 = false := by
  intro l
  induction l with
  | nil => intro st hmem _; exact absurd hmem (List.not_mem_nil k)
  | cons i rest ih =>
    intro st hmem hnot
    show ((loadImage outcome i st).2 &&
      (loadAll outcome rest (loadImage outcome i st).1).2) = false
    rcases List.mem_cons.mp hmem with rfl | hmem
    · rw [loadImage_flag_false outcome k st hnot hk]
      exact Bool.false_and _
    · have hknot : k ∉ (loadImage outcome i st).1.loadedImages := by
        intro hmem2
        rcases (loadImage_mem outcome i st k).mp hmem2 with h | ⟨rfl, hoi⟩
        · exact hnot h
        · rw [hk] at hoi
          exact Bool.false_ne_true hoi
      rw [ih (loadImage outcome i st).1 hmem hknot]
      exact Bool.and_false _

end ForestScroller

/-- C1 counterexample: with `totalFrames = 4` (priority frames 0, 2, 3) and
the load of the single remaining frame 1 failing, every other frame is loaded
(`loadedCount = 3`) — yet initialization does NOT complete with `onReady`:
`Promise.all` rejects on the failed load, `init`'s catch block runs `onError`,
and `initReady` reports `false`, contradicting the claim that a single frame
failure does not abort the preload step. -/
theorem c1_counterexample :
    (ForestScroller.initReady 4 (fun i => decide (i ≠ 1))).2 = false ∧
    (ForestScroller.initReady 4 (fun i => decide (i ≠ 1))).1.loadedCount = 3 ∧
    0 ∈ (ForestScroller.initReady 4 (fun i => decide (i ≠ 1))).1.loadedImages ∧
    2 ∈ (ForestScroller.initReady 4 (fun i => decide (i ≠ 1))).1.loadedImages ∧
    3 ∈ (ForestScroller.initReady 4 (fun i => decide (i ≠ 1))).1.loadedImages ∧
    1 ∉ (ForestScroller.initReady 4 (fun i => decide (i ≠ 1))).1.loadedImages := by
  decide

/-- C1 (amended): the remaining frames are all requested before the batch is
awaited, so a failing frame does not prevent any other frame index from
loading, and `getMetrics().loadedFrames` counts exactly the successful loads —
but the preload batch does NOT settle independently: `loadImage` rejects on
failure and `Promise.all` therefore rejects as soon as any frame fails, so
`init` does not invoke `onReady` (the catch block invokes `onError` instead).
Stated for any single failing non-priority frame `k`. -/
theorem c1_preload_failure_semantics (F : ℕ) (outcome : ℕ → Bool) (k : ℕ)
    (hkF : k < F) (hkp : k ∉ ForestScroller.priorityFrames F)
    (hk : outcome k = false)
    (hrest : ∀ j, j < F → j ≠ k → outcome j = true) :
    (ForestScroller.initReady F outcome).2 = false ∧
    (∀ j, j < F → j ≠ k →
      j ∈ (ForestScroller.initReady F outcome).1.loadedImages) ∧
    k ∉ (ForestScroller.initReady F outcome).1.loadedImages ∧
    (ForestScroller.initReady F outcome).1.loadedCount = F - 1 := by
  have hF : 1 ≤ F := by omega
  have hprF : ∀ i ∈ ForestScroller.priorityFrames F, i < F := by
    intro i hi
    unfold ForestScroller.priorityFrames at hi
    simp only [List.mem_cons, List.not_mem_nil, or_false] at hi
    rcases hi with rfl | rfl | rfl
    · omega
    · have := Nat.div_lt_self (show 0 < F by omega) (show 1 < 2 by norm_num)
      omega
    · omega
  have hallpr : ∀ i ∈ ForestScroller.priorityFrames F, outcome i = true := by
    intro i hi
    refine hrest i (hprF i hi) ?_
    intro heq
    exact hkp (heq ▸ hi)
  obtain ⟨hflag, hmem, hwf⟩ :=
    ForestScroller.loadSeq_success outcome (ForestScroller.priorityFrames F)
      ⟨∅, 0⟩ hallpr
  have hpre : ForestScroller.initReady F outcome =
      ForestScroller.loadAll outcome
        ((List.range F).filter (fun i => decide (i ∉ ForestScroller.priorityFrames F)))
        (ForestScroller.loadSeq outcome (ForestScroller.priorityFrames F) ⟨∅, 0⟩).1 := by
    unfold ForestScroller.initReady ForestScroller.preloadImages
    simp only [hflag]
    simp
  have hknotpr : k ∉ (ForestScroller.loadSeq outcome
      (ForestScroller.priorityFrames F) ⟨∅, 0⟩).1.loadedImages := by
    intro hmem2
    rcases (hmem k).mp hmem2 with h | h
    · exact absurd h (Finset.not_mem_empty k)
    · exact hkp h
  have hkrem : k ∈ (List.range F).filter
      (fun i => decide (i ∉ ForestScroller.priorityFrames F)) := by
    rw [List.mem_filter]
    exact ⟨List.mem_range.mpr hkF, by simp [hkp]⟩
  have hsetchar : ∀ j, j ∈ (ForestScroller.initReady F outcome).1.loadedImages ↔
      (j < F ∧ j ≠ k) := by
    intro j
    rw [hpre, ForestScroller.loadAll_mem]
    constructor
    · rintro (hj | ⟨hj1, hj2⟩)
      · rcases (hmem j).mp hj with h | h
        · exact absurd h (Finset.not_mem_empty j)
        · refine ⟨hprF j h, ?_⟩
          intro heq
          exact hkp (heq ▸ h)
      · rw [List.mem_filter] at hj1
        refine ⟨List.mem_range.mp hj1.1, ?_⟩
        intro heq
        rw [heq, hk] at hj2
        exact Bool.false_ne_true hj2
    · rintro ⟨hjF, hjk⟩
      by_cases hjp : j ∈ ForestScroller.priorityFrames F
      · exact Or.inl ((hmem j).mpr (Or.inr hjp))
      · refine Or.inr ⟨?_, hrest j hjF hjk⟩
        rw [List.mem_filter]
        exact ⟨List.mem_range.mpr hjF, by simp [hjp]⟩
  have hseteq : (ForestScroller.initReady F outcome).1.loadedImages =
      (Finset.range F).erase k := by
    ext j
    rw [hsetchar j, Finset.mem_erase, Finset.mem_range]
    tauto
  refine ⟨?_, ?_, ?_, ?_⟩
  · rw [hpre]
    exact ForestScroller.loadAll_flag_false outcome k hk _ _ hkrem hknotpr
  · intro j hjF hjk
    exact (hsetchar j).mpr ⟨hjF, hjk⟩
  · intro hmem2
    exact ((hsetchar k).mp hmem2).2 rfl
  · have hcount : (ForestScroller.initReady F outcome).1.loadedCount =
        (ForestScroller.initReady F outcome).1.loadedImages.card := by
      rw [hpre]
      exact ForestScroller.loadAll_wf outcome _ _ (hwf (by simp))
    rw [hcount, hseteq, Finset.card_erase_of_mem (Finset.mem_range.mpr hkF),
      Finset.card_range]

/-- Witness for C1 (amended) at `totalFrames = 4` with frame 1 failing. -/
theorem c1_preload_failure_semantics_witness :
    (ForestScroller.initReady 4 (fun i => decide (i ≠ 1))).2 = false ∧
    (∀ j, j < 4 → j ≠ 1 →
      j ∈ (ForestScroller.initReady 4 (fun i => decide (i ≠ 1))).1.loadedImages) ∧
    1 ∉ (ForestScroller.initReady 4 (fun i => decide (i ≠ 1))).1.loadedImages ∧
    (ForestScroller.initReady 4 (fun i => decide (i ≠ 1))).1.loadedCount = 4 - 1 :=
  c1_preload_failure_semantics 4 (fun i => decide (i ≠ 1)) 1
    (by norm_num) (by decide) (by decide) (by decide)

/-- Witness for C7: concrete evaluations of the opacity profile. -/
theorem c7_lightRayOpacity_profile_witness :
    ForestAmbient.lightRayOpacityOf (1/4) ≤ ForestAmbient.lightRayOpacityOf (1/2) ∧
    ForestAmbient.lightRayOpacityOf 1 < ForestAmbient.lightRayOpacityOf (3/4) ∧
    ForestAmbient.lightRayOpacityOf 0 < ForestAmbient.lightRayOpacityOf (1/4) ∧
    ForestAmbient.lightRayOpacityOf 0 = 1/5 ∧
    1/5 ≤ ForestAmbient.lightRayOpacityOf (1/3) :=
  ⟨c7_lightRayOpacity_profile.1 (1/4) (by norm_num) (by norm_num),
   c7_lightRayOpacity_profile.2.1 (3/4) 1 (by norm_num) (by norm_num) (by norm_num),
   c7_lightRayOpacity_profile.2.2.1 0 (1/4) (by norm_num) (by norm_num) (by norm_num),
   c7_lightRayOpacity_profile.2.2.2.1,
   c7_lightRayOpacity_profile.2.2.2.2.2.1 (1/3) (by norm_num) (by norm_num)⟩

/-- Witness for C8 at `totalFrames = 120`, `frameIndex = 5`,
`percentage = 50`. -/
theorem c8_jump_idempotent_witness :
    ForestScroller.jumpToFrame 120 5
        (ForestScroller.jumpToFrame 120 5
          (⟨0, 0, 0⟩ : ForestScroller.ScrollerState)).1 =
      ForestScroller.jumpToFrame 120 5 (⟨0, 0, 0⟩ : ForestScroller.ScrollerState) ∧
    ForestScroller.jumpToProgress 120 50
        (ForestScroller.jumpToProgress 120 50
          (⟨0, 0, 0⟩ : ForestScroller.ScrollerState)).1 =
      ForestScroller.jumpToProgress 120 50 (⟨0, 0, 0⟩ : ForestScroller.ScrollerState) :=
  c8_jump_idempotent 120 5 50 ⟨0, 0, 0⟩

/-- Witness for C9 at the default configuration, smoothing overridden to 1/4,
three ticks. -/
theorem c9_smoothing_unused_witness :
    (ForestScroller.animate { (⟨120, 1/10, 5, 60, 768⟩ : ForestScroller.Config) with
        smoothing := 1/4 } 0)^[3] ⟨0, 7, 0⟩ =
      (ForestScroller.animate (⟨120, 1/10, 5, 60, 768⟩ : ForestScroller.Config) 0)^[3]
        ⟨0, 7, 0⟩ :=
  (c9_smoothing_unused ⟨120, 1/10, 5, 60, 768⟩ (1/4) 0 ⟨0, 7, 0⟩ 3 0 0 0 0 0 false).1
